import Mathlib

/-!
Shallow embedding of the analytics core of a personal budget tracker
(single Python source file).  Transactions and catalog entries are CSV
rows, i.e. lists of string cells; the analytics code reads a cell as a
raw string, as a float, as an int, or as a date depending on position.
We model a cell by its raw text together with the outcome of each of
those three parses (`none` = the corresponding Python conversion raises
ValueError).  Instants are rationals measured in days: the integer part
is the calendar day, the fractional part the time of day; a date parsed
by strptime with a day/month/year format is a midnight, hence an integer.
-/

namespace Budget

/-- One CSV cell as the analytics code can observe it: the raw string,
plus the result of float(), int() and strptime() on it. -/
structure Field where
  raw : String
  asNum : Option ℚ := none
  asInt : Option ℤ := none
  asDate : Option ℤ := none
deriving DecidableEq

/-- A plain text cell: every numeric or date conversion raises. -/
def mkStr (s : String) : Field := { raw := s }

/-- A numeric cell: float() succeeds with value q; int() and date parse fail.
(The analytics code under study never applies int() to amount cells.) -/
def mkNum (s : String) (q : ℚ) : Field := { raw := s, asNum := some q }

/-- A date cell in day/month/year format: strptime yields midnight of day d. -/
def mkDate (s : String) (d : ℤ) : Field := { raw := s, asDate := some d }

/-- The cell produced by writing str(n) for an integer count n: it reads
back as the same integer (and as the float of that integer). -/
def intField (n : ℤ) : Field :=
  { raw := toString n, asNum := some (n : ℚ), asInt := some n }

/-- row[i] as a string; the analytics code only reads it under a length
guard, so the default is never hit in guarded positions. -/
def fieldRaw (r : List Field) (i : ℕ) : String :=
  match r.get? i with
  | some f => f.raw
  | none => ""

/-- float(row[i]): none when the conversion raises ValueError. -/
def fieldNum (r : List Field) (i : ℕ) : Option ℚ := (r.get? i).bind Field.asNum

/-- int(row[i]): none when the conversion raises ValueError. -/
def fieldInt (r : List Field) (i : ℕ) : Option ℤ := (r.get? i).bind Field.asInt

/-- strptime(row[i], day/month/year): none when parsing raises ValueError. -/
def fieldDate (r : List Field) (i : ℕ) : Option ℤ := (r.get? i).bind Field.asDate

/-! ### Aggregator (source: Analytics.calculate_label_stats /
Analytics.calculate_type_stats, main.py lines 1650-1700)

A transaction row is processed when it has at least 5 cells and its
cell 0 equals the requested flow; then float(row[2]) is attempted and a
ValueError skips the row (the `continue` in the source).  The group key
is row[1] for labels and row[3] for types; we share the code through a
`dim` parameter instantiated at 1 and 3. -/

/-- The (key, amount) contribution of one row, none when the row is
skipped (fewer than 5 cells, wrong flow, or float(row[2]) raises). -/
def matchedRow (flow : String) (dim : ℕ) (t : List Field) : Option (String × ℚ) :=
  if 5 ≤ t.length ∧ fieldRaw t 0 = flow then
    match fieldNum t 2 with
    | some a => some (fieldRaw t dim, a)
    | none => none
  else none

/-- Python dict update `d[k] = d.get(k, 0) + v`: insertion order is kept,
a present key is updated in place, an absent key is appended. -/
def dictAdd (k : String) (v : ℚ) : List (String × ℚ) → List (String × ℚ)
  | [] => [(k, v)]
  | p :: rest => if p.1 = k then (p.1, p.2 + v) :: rest else p :: dictAdd k v rest

/-- One iteration of the grouping loop: the accumulator is the pair
(label_totals or type_totals, total_amount). -/
def statsStep (flow : String) (dim : ℕ) (acc : List (String × ℚ) × ℚ) (t : List Field) :
    List (String × ℚ) × ℚ :=
  match matchedRow flow dim t with
  | some ka => (dictAdd ka.1 ka.2 acc.1, acc.2 + ka.2)
  | none => acc

/-- The grouping loop over the whole transaction list. -/
def statsFold (flow : String) (dim : ℕ) (ts : List (List Field)) :
    List (String × ℚ) × ℚ :=
  ts.foldl (statsStep flow dim) ([], 0)

/-- The comparator of `sorted(..., key=lambda x: x[1], reverse=True)`:
Python's sort is stable, and a stable descending sort coincides with
insertion sort by this non-strict relation. -/
def byTotalDesc (a b : String × ℚ) : Prop := b.2 ≤ a.2

instance : DecidableRel byTotalDesc :=
  fun a b => inferInstanceAs (Decidable (b.2 ≤ a.2))

instance : IsTotal (String × ℚ) byTotalDesc :=
  ⟨fun a b => le_total b.2 a.2⟩

instance : IsTrans (String × ℚ) byTotalDesc :=
  ⟨fun _ _ _ h1 h2 => le_trans h2 h1⟩

/-- Shared body of calculate_label_stats and calculate_type_stats:
group, sort descending by summed amount, keep the top 5, and attach
`amount / total_amount * 100` (0 when total_amount is not positive). -/
def calcStats (ts : List (List Field)) (flow : String) (dim : ℕ) :
    List (String × ℚ × ℚ) :=
  let p := statsFold flow dim ts
  ((List.insertionSort byTotalDesc p.1).take 5).map
    (fun g => (g.1, g.2, if 0 < p.2 then g.2 / p.2 * 100 else 0))

/-- Source: Analytics.calculate_label_stats (main.py 1650-1674). -/
def calculate_label_stats (ts : List (List Field)) (flow : String) :
    List (String × ℚ × ℚ) :=
  calcStats ts flow 1

/-- Source: Analytics.calculate_type_stats (main.py 1676-1700). -/
def calculate_type_stats (ts : List (List Field)) (flow : String) :
    List (String × ℚ × ℚ) :=
  calcStats ts flow 3

/-! ### Balance calculator (source: Analytics.calculate_totals,
main.py 1760-1777, and Dashboard.calculate_all_time_totals, 223-248)

calculate_totals reads row[0] and float(row[2]) inside a try; an
IndexError (fewer than 3 cells) or a ValueError (non-numeric amount)
skips the row. -/

/-- The shared loop body of the two totals reductions: a row is skipped
unless it has at least `minLen` cells and its amount parses; an Expense
row adds to the first component, an Income row to the second.  It is the
try/except body of calculate_totals with `minLen = 3` (row[0] and row[2]
are read, so IndexError fires below 3 cells), and the length-guarded body
of calculate_all_time_totals with `minLen = 5`. -/
def totalsStep (minLen : ℕ) (acc : ℚ × ℚ) (t : List Field) : ℚ × ℚ :=
  if minLen ≤ t.length then
    match fieldNum t 2 with
    | some a =>
        if fieldRaw t 0 = "Expense" then (acc.1 + a, acc.2)
        else if fieldRaw t 0 = "Income" then (acc.1, acc.2 + a)
        else acc
    | none => acc
  else acc

/-- Source: Analytics.calculate_totals (main.py 1760-1777); returns
(total_expenses, total_income). -/
def calculate_totals (ts : List (List Field)) : ℚ × ℚ :=
  ts.foldl (totalsStep 3) (0, 0)

/-- Source: Dashboard.calculate_all_time_totals (main.py 223-248).  The
log is `none` when the transactions file does not exist (FileNotFoundError);
otherwise it is the list of data rows after the header.  Its loop keeps
rows with at least 5 cells and then runs the same try/except body, which
is exactly `totalsStep 5`. -/
def calculate_all_time_totals (log : Option (List (List Field))) : ℚ × ℚ :=
  match log with
  | none => (0, 0)
  | some rows => rows.foldl (totalsStep 5) (0, 0)

/-! ### Period filter (source: Analytics.get_filtered_transactions,
main.py 1721-1758)

The log argument is `none` when the transactions file does not exist
(FileNotFoundError returns []) and `some rows` otherwise, rows being the
data rows after the header.  `now` is the instant datetime.now() in
rational days.  `replace(hour=0, ...)` is the floor to the calendar day;
`now - timedelta(days=w)` is `now - w`; datetime comparison is the order
on ℚ, and a parsed transaction date is the integer midnight of its day. -/

def get_filtered_transactions (log : Option (List (List Field))) (period : String)
    (now : ℚ) : List (List Field) :=
  match log with
  | none => []
  | some rows =>
    let all_transactions := rows.filter (fun r => 5 ≤ r.length)
    if period = "All Time" then all_transactions
    else
      let cutoff : Option ℚ :=
        if period = "Today" then some ((Int.floor now : ℤ) : ℚ)
        else if period = "Last 7 days" then some (now - 7)
        else if period = "Last 30 days" then some (now - 30)
        else if period = "Last 12 months" then some (now - 365)
        else none
      match cutoff with
      | none => all_transactions
      | some c =>
        all_transactions.filter (fun t =>
          match fieldDate t 4 with
          | some d => decide (c ≤ (d : ℚ))
          | none => false)

/-! ### Day count (source: Analytics.get_days_in_period, main.py 1779-1840) -/

/-- The parseable dates of the rows with at least 5 cells, in file order
(the first reading loop of get_days_in_period). -/
def rowDates (rows : List (List Field)) : List ℤ :=
  (rows.filter (fun r => 5 ≤ r.length)).filterMap (fun r => fieldDate r 4)

/-- Python min() over a nonempty list, phrased as a fold over the tail. -/
def listMin (d : ℤ) (ds : List ℤ) : ℤ := ds.foldl min d

/-- Python max() over a nonempty list, phrased as a fold over the tail. -/
def listMax (d : ℤ) (ds : List ℤ) : ℤ := ds.foldl max d

/-- Source: Analytics.get_days_in_period (main.py 1779-1840).  The result
is `none` exactly when the Python function raises: in the All Time branch
the loop over the `transactions` argument indexes transaction[4] with only
ValueError caught, so a row with fewer than 5 cells raises IndexError.
`(a - b).days` of two datetimes is the floor of the difference in days. -/
def get_days_in_period (log : Option (List (List Field))) (period : String)
    (now : ℚ) (transactions : List (List Field)) : Option ℤ :=
  if period = "Today" then some 1
  else
    match log with
    | none => some 1
    | some rows =>
      match rowDates rows with
      | [] => some 1
      | d :: ds =>
        let earliest_transaction_date := listMin d ds
        let theoretical_start : Option ℚ :=
          if period = "Last 7 days" then some (now - 7)
          else if period = "Last 30 days" then some (now - 30)
          else if period = "Last 12 months" then some (now - 365)
          else none
        match theoretical_start with
        | some th =>
          let actual_start := max th ((earliest_transaction_date : ℤ) : ℚ)
          some (max 1 (Int.floor (now - actual_start) + 1))
        | none =>
          if period = "All Time" then
            if transactions.all (fun t => 5 ≤ t.length) then
              match transactions.filterMap (fun t => fieldDate t 4) with
              | [] => some 1
              | e :: es => some (max 1 (listMax e es - listMin e es + 1))
            else none
          else some 1

/-! ### Catalog usage counters (source: Transactions.decrement_label_count
612-636, decrement_type_count 638-662, update_label_count 680-703,
update_type_count 705-728, decrement_usage_counts 596-610,
update_usage_counts 664-678)

Each function reads the whole catalog file keeping rows with enough
cells, scans for the first row matching the key, rewrites that row's
count, breaks, and writes the kept rows back.  The scan unpacks each row
into exactly 3 (labels) or 2 (types) variables, so a longer row raises
ValueError; int(count) on the matched row can raise too.  The whole body
is wrapped in `except Exception`, which skips the rewrite entirely, so a
raise leaves the file as it was.  The loop result is `none` in that case. -/

/-- The scan-and-update loop of decrement_label_count; `none` models an
uncaught-in-loop exception (row not exactly 3 cells before the break, or
a non-integer count on the matched row). -/
def decLabelLoop (type_name label_name : String) :
    List (List Field) → Option (List (List Field))
  | [] => some []
  | r :: rs =>
    match r with
    | [a, b, c] =>
      if a.raw = type_name ∧ b.raw = label_name then
        match c.asInt with
        | some n => some ([a, b, intField (max 0 (n - 1))] :: rs)
        | none => none
      else
        match decLabelLoop type_name label_name rs with
        | some rs2 => some (r :: rs2)
        | none => none
    | _ => none

/-- The scan-and-update loop of update_label_count (increment). -/
def incLabelLoop (type_name label_name : String) :
    List (List Field) → Option (List (List Field))
  | [] => some []
  | r :: rs =>
    match r with
    | [a, b, c] =>
      if a.raw = type_name ∧ b.raw = label_name then
        match c.asInt with
        | some n => some ([a, b, intField (n + 1)] :: rs)
        | none => none
      else
        match incLabelLoop type_name label_name rs with
        | some rs2 => some (r :: rs2)
        | none => none
    | _ => none

/-- The scan-and-update loop of decrement_type_count. -/
def decTypeLoop (type_name : String) :
    List (List Field) → Option (List (List Field))
  | [] => some []
  | r :: rs =>
    match r with
    | [a, c] =>
      if a.raw = type_name then
        match c.asInt with
        | some n => some ([a, intField (max 0 (n - 1))] :: rs)
        | none => none
      else
        match decTypeLoop type_name rs with
        | some rs2 => some (r :: rs2)
        | none => none
    | _ => none

/-- The scan-and-update loop of update_type_count (increment). -/
def incTypeLoop (type_name : String) :
    List (List Field) → Option (List (List Field))
  | [] => some []
  | r :: rs =>
    match r with
    | [a, c] =>
      if a.raw = type_name then
        match c.asInt with
        | some n => some ([a, intField (n + 1)] :: rs)
        | none => none
      else
        match incTypeLoop type_name rs with
        | some rs2 => some (r :: rs2)
        | none => none
    | _ => none

/-- Source: Transactions.decrement_label_count (main.py 612-636).  The
argument is the catalog file content; rows with fewer than 3 cells are
dropped at read time, and an exception anywhere leaves the file unchanged. -/
def decrement_label_count (file : List (List Field)) (type_name label_name : String) :
    List (List Field) :=
  match decLabelLoop type_name label_name (file.filter (fun r => 3 ≤ r.length)) with
  | some labels => labels
  | none => file

/-- Source: Transactions.update_label_count (main.py 680-703). -/
def update_label_count (file : List (List Field)) (type_name label_name : String) :
    List (List Field) :=
  match incLabelLoop type_name label_name (file.filter (fun r => 3 ≤ r.length)) with
  | some labels => labels
  | none => file

/-- Source: Transactions.decrement_type_count (main.py 638-662); rows with
fewer than 2 cells are dropped at read time. -/
def decrement_type_count (file : List (List Field)) (type_name : String) :
    List (List Field) :=
  match decTypeLoop type_name (file.filter (fun r => 2 ≤ r.length)) with
  | some types => types
  | none => file

/-- Source: Transactions.update_type_count (main.py 705-728). -/
def update_type_count (file : List (List Field)) (type_name : String) :
    List (List Field) :=
  match incTypeLoop type_name (file.filter (fun r => 2 ≤ r.length)) with
  | some types => types
  | none => file

/-- The four catalog files. -/
structure Catalogs where
  expenseLabels : List (List Field)
  expenseTypes : List (List Field)
  incomeLabels : List (List Field)
  incomeTypes : List (List Field)
deriving DecidableEq

/-- Source: Transactions.decrement_usage_counts (main.py 596-610): the
flow picks the expense files when it equals "Expense" and the income
files otherwise, then both counters are decremented. -/
def decrement_usage_counts (cats : Catalogs) (flow_type label_name type_name : String) :
    Catalogs :=
  if flow_type = "Expense" then
    { cats with
      expenseLabels := decrement_label_count cats.expenseLabels type_name label_name
      expenseTypes := decrement_type_count cats.expenseTypes type_name }
  else
    { cats with
      incomeLabels := decrement_label_count cats.incomeLabels type_name label_name
      incomeTypes := decrement_type_count cats.incomeTypes type_name }

/-- Source: Transactions.update_usage_counts (main.py 664-678). -/
def update_usage_counts (cats : Catalogs) (flow_type label_name type_name : String) :
    Catalogs :=
  if flow_type = "Expense" then
    { cats with
      expenseLabels := update_label_count cats.expenseLabels type_name label_name
      expenseTypes := update_type_count cats.expenseTypes type_name }
  else
    { cats with
      incomeLabels := update_label_count cats.incomeLabels type_name label_name
      incomeTypes := update_type_count cats.incomeTypes type_name }

/-- The labels file of a flow, as the dispatch in lines 598-604 picks it. -/
def labelCatalogOf (cats : Catalogs) (flow : String) : List (List Field) :=
  if flow = "Expense" then cats.expenseLabels else cats.incomeLabels

/-- The types file of a flow, as the dispatch in lines 598-604 picks it. -/
def typeCatalogOf (cats : Catalogs) (flow : String) : List (List Field) :=
  if flow = "Expense" then cats.expenseTypes else cats.incomeTypes

/-- The labels file the dispatch does not touch for a flow. -/
def otherLabelCatalog (cats : Catalogs) (flow : String) : List (List Field) :=
  if flow = "Expense" then cats.incomeLabels else cats.expenseLabels

/-- The types file the dispatch does not touch for a flow. -/
def otherTypeCatalog (cats : Catalogs) (flow : String) : List (List Field) :=
  if flow = "Expense" then cats.incomeTypes else cats.expenseTypes

/-! ### Specification-side definitions

These restate, in declarative form, the quantities the specification
talks about; the claim theorems relate them to the executable embedding
above. -/

/-- The sum of the parseable amounts of the rows of a flow with at least
`minLen` cells (the flow total a reduction is expected to produce). -/
def flowSum (minLen : ℕ) (flow : String) (ts : List (List Field)) : ℚ :=
  (ts.filterMap (fun t =>
    if minLen ≤ t.length ∧ fieldRaw t 0 = flow then fieldNum t 2 else none)).sum

/-- The (group key, amount) pairs of the rows the aggregator processes,
in order. -/
def matched (ts : List (List Field)) (flow : String) (dim : ℕ) : List (String × ℚ) :=
  ts.filterMap (matchedRow flow dim)

/-- The flow total the aggregator accumulates: sum over every matching
transaction regardless of group. -/
def totalAmount (ts : List (List Field)) (flow : String) (dim : ℕ) : ℚ :=
  ((matched ts flow dim).map Prod.snd).sum

/-- The summed amount of one group. -/
def groupTotal (ts : List (List Field)) (flow : String) (dim : ℕ) (name : String) : ℚ :=
  (((matched ts flow dim).filter (fun p => p.1 = name)).map Prod.snd).sum

/-- The group keys that occur, without duplicates. -/
def numGroups (ts : List (List Field)) (flow : String) (dim : ℕ) : ℕ :=
  ((matched ts flow dim).map Prod.fst).dedup.length

/-- The component of a (total_expenses, total_income) pair a flow selects. -/
def total_for (p : ℚ × ℚ) (flow : String) : ℚ :=
  if flow = "Expense" then p.1 else p.2

/-- Lookup in a Python-dict association list. -/
def dlookup (k : String) : List (String × ℚ) → Option ℚ
  | [] => none
  | p :: rest => if p.1 = k then some p.2 else dlookup k rest

/-! ### Concrete rows for instantiations -/

/-- A well-formed transaction row: flow, label, numeric amount, type,
parseable date (midnight of day d). -/
def sampleRow (flow label : String) (amt : ℚ) (ty : String) (d : ℤ) : List Field :=
  [mkStr flow, mkStr label, mkNum "amt" amt, mkStr ty, mkDate "date" d]

/-- A transaction row whose amount cell is not numeric. -/
def badAmountRow : List Field :=
  [mkStr "Expense", mkStr "L", mkStr "abc", mkStr "T", mkStr "date"]

/-- A catalog labels row: owning type, label name, usage count. -/
def labRow (ty l : String) (n : ℤ) : List Field := [mkStr ty, mkStr l, intField n]

/-- A catalog types row: type name, usage count. -/
def tyRow (ty : String) (n : ℤ) : List Field := [mkStr ty, intField n]

/-- A small catalog state with one row per file. -/
def sampleCats : Catalogs :=
  { expenseLabels := [labRow "Food" "Groceries" 2]
    expenseTypes := [tyRow "Food" 4]
    incomeLabels := [labRow "Job" "Salary" 1]
    incomeTypes := [tyRow "Job" 1] }

/-- A log with rows on two consecutive days. -/
def twoDayLog : List (List Field) :=
  [sampleRow "Expense" "A" 1 "T" 0, sampleRow "Expense" "B" 1 "T" 1]

/-- Transaction list with six expense labels, the last with a negative
amount. -/
def sixLabelRows : List (List Field) :=
  [sampleRow "Expense" "A" 10 "T" 0, sampleRow "Expense" "B" 10 "T" 0,
   sampleRow "Expense" "C" 10 "T" 0, sampleRow "Expense" "D" 10 "T" 0,
   sampleRow "Expense" "E" 10 "T" 0, sampleRow "Expense" "F" (-5) "T" 0]

/-! ### Lemmas about the dict and the grouping fold -/

theorem dlookup_dictAdd_self (k : String) (v : ℚ) (d : List (String × ℚ)) :
    dlookup k (dictAdd k v d) = some ((dlookup k d).getD 0 + v) := by
  induction d with
  | nil => simp [dictAdd, dlookup]
  | cons p rest ih =>
    by_cases h : p.1 = k
    · simp [dictAdd, dlookup, h]
    · simp [dictAdd, dlookup, h, ih]

theorem dlookup_dictAdd_ne (k k' : String) (v : ℚ) (d : List (String × ℚ))
    (h : k' ≠ k) : dlookup k' (dictAdd k v d) = dlookup k' d := by
  have hk : k ≠ k' := Ne.symm h
  induction d with
  | nil => simp [dictAdd, dlookup, hk]
  | cons p rest ih =>
    by_cases hp : p.1 = k
    · have hp' : p.1 ≠ k' := by rw [hp]; exact hk
      simp [dictAdd, dlookup, hp, hp', hk]
    · simp [dictAdd, dlookup, hp, ih]

theorem keys_dictAdd (k : String) (v : ℚ) (d : List (String × ℚ)) :
    (dictAdd k v d).map Prod.fst =
      if k ∈ d.map Prod.fst then d.map Prod.fst else d.map Prod.fst ++ [k] := by
  induction d with
  | nil => simp [dictAdd]
  | cons p rest ih =>
    by_cases h : p.1 = k
    · simp [dictAdd, h]
    · have : k ≠ p.1 := fun hh => h hh.symm
      by_cases hk : k ∈ rest.map Prod.fst <;>
        simp [dictAdd, h, ih, hk, this]

theorem sum_dictAdd (k : String) (v : ℚ) (d : List (String × ℚ)) :
    ((dictAdd k v d).map Prod.snd).sum = (d.map Prod.snd).sum + v := by
  induction d with
  | nil => simp [dictAdd]
  | cons p rest ih =>
    by_cases h : p.1 = k
    · simp [dictAdd, h]
      ring
    · simp [dictAdd, h, ih]
      ring

theorem nodup_keys_dictAdd (k : String) (v : ℚ) (d : List (String × ℚ))
    (hd : (d.map Prod.fst).Nodup) : ((dictAdd k v d).map Prod.fst).Nodup := by
  rw [keys_dictAdd]
  by_cases hk : k ∈ d.map Prod.fst
  · simpa [hk]
  · rw [if_neg hk]
    exact List.nodup_append.2 ⟨hd, List.nodup_singleton k,
      by simpa [List.disjoint_singleton] using hk⟩

theorem mem_of_dlookup {k : String} {v : ℚ} {d : List (String × ℚ)}
    (h : dlookup k d = some v) : (k, v) ∈ d := by
  induction d with
  | nil => simp [dlookup] at h
  | cons p rest ih =>
    by_cases hp : p.1 = k
    · simp [dlookup, hp] at h
      have hpv : p = (k, v) := by
        cases p
        simp_all
      rw [hpv]
      exact List.mem_cons_self _ _
    · simp [dlookup, hp] at h
      exact List.mem_cons_of_mem _ (ih h)

theorem dlookup_isSome_iff {k : String} {d : List (String × ℚ)} :
    (dlookup k d).isSome = true ↔ k ∈ d.map Prod.fst := by
  induction d with
  | nil => simp [dlookup]
  | cons p rest ih =>
    by_cases hp : p.1 = k
    · simp [dlookup, hp]
    · have hk : k ≠ p.1 := fun hh => hp hh.symm
      simp [dlookup, hp, ih, hk]

theorem dlookup_eq_some_of_mem {k : String} {v : ℚ} {d : List (String × ℚ)}
    (hd : (d.map Prod.fst).Nodup) (h : (k, v) ∈ d) : dlookup k d = some v := by
  induction d with
  | nil => simp at h
  | cons p rest ih =>
    rw [List.map_cons, List.nodup_cons] at hd
    rcases List.mem_cons.1 h with h1 | h1
    · rw [← h1]
      simp [dlookup]
    · have hp : p.1 ≠ k := by
        intro hh
        exact hd.1 (hh ▸ List.mem_map.2 ⟨(k, v), h1, rfl⟩)
      simpa [dlookup, hp] using ih hd.2 h1

theorem matched_cons (flow : String) (dim : ℕ) (t : List Field) (ts : List (List Field)) :
    matched (t :: ts) flow dim =
      match matchedRow flow dim t with
      | some p => p :: matched ts flow dim
      | none => matched ts flow dim := by
  cases h : matchedRow flow dim t <;> simp [matched, List.filterMap_cons, h]

theorem groupTotal_cons_some {flow : String} {dim : ℕ} {t : List Field}
    {ts : List (List Field)} {p : String × ℚ} (h : matchedRow flow dim t = some p)
    (k : String) :
    groupTotal (t :: ts) flow dim k =
      (if p.1 = k then p.2 else 0) + groupTotal ts flow dim k := by
  by_cases hk : p.1 = k <;>
    simp [groupTotal, matched_cons, h, hk]

theorem groupTotal_cons_none {flow : String} {dim : ℕ} {t : List Field}
    {ts : List (List Field)} (h : matchedRow flow dim t = none) (k : String) :
    groupTotal (t :: ts) flow dim k = groupTotal ts flow dim k := by
  simp [groupTotal, matched_cons, h]

theorem totalAmount_cons_some {flow : String} {dim : ℕ} {t : List Field}
    {ts : List (List Field)} {p : String × ℚ} (h : matchedRow flow dim t = some p) :
    totalAmount (t :: ts) flow dim = p.2 + totalAmount ts flow dim := by
  simp [totalAmount, matched_cons, h]

theorem totalAmount_cons_none {flow : String} {dim : ℕ} {t : List Field}
    {ts : List (List Field)} (h : matchedRow flow dim t = none) :
    totalAmount (t :: ts) flow dim = totalAmount ts flow dim := by
  simp [totalAmount, matched_cons, h]

theorem statsGo_snd (flow : String) (dim : ℕ) :
    ∀ (ts : List (List Field)) (acc : List (String × ℚ) × ℚ),
      (ts.foldl (statsStep flow dim) acc).2 = acc.2 + totalAmount ts flow dim := by
  intro ts
  induction ts with
  | nil => simp [totalAmount, matched]
  | cons t ts ih =>
    intro acc
    cases h : matchedRow flow dim t with
    | none =>
      rw [List.foldl_cons, statsStep, h, ih, totalAmount_cons_none h]
    | some p =>
      rw [List.foldl_cons, statsStep, h, ih, totalAmount_cons_some h]
      ring

theorem statsGo_lookup_some (flow : String) (dim : ℕ) :
    ∀ (ts : List (List Field)) (d : List (String × ℚ)) (tot : ℚ) (k : String) (v : ℚ),
      dlookup k d = some v →
      dlookup k ((ts.foldl (statsStep flow dim) (d, tot)).1) =
        some (v + groupTotal ts flow dim k) := by
  intro ts
  induction ts with
  | nil =>
    intro d tot k v hv
    simp [groupTotal, matched, hv]
  | cons t ts ih =>
    intro d tot k v hv
    cases h : matchedRow flow dim t with
    | none =>
      rw [List.foldl_cons, statsStep, h, ih _ _ _ _ hv, groupTotal_cons_none h]
    | some p =>
      rw [List.foldl_cons, statsStep, h]
      by_cases hk : p.1 = k
      · have h1 : dlookup k (dictAdd p.1 p.2 d) = some (v + p.2) := by
          rw [hk, dlookup_dictAdd_self, hv]
          simp
        rw [ih _ _ _ _ h1, groupTotal_cons_some h, if_pos hk]
        congr 1
        ring
      · have h1 : dlookup k (dictAdd p.1 p.2 d) = some v := by
          rw [dlookup_dictAdd_ne _ _ _ _ (fun hh => hk hh.symm), hv]
        rw [ih _ _ _ _ h1, groupTotal_cons_some h, if_neg hk, zero_add]

theorem statsGo_lookup_none (flow : String) (dim : ℕ) :
    ∀ (ts : List (List Field)) (d : List (String × ℚ)) (tot : ℚ) (k : String),
      dlookup k d = none →
      dlookup k ((ts.foldl (statsStep flow dim) (d, tot)).1) =
        if k ∈ (matched ts flow dim).map Prod.fst
          then some (groupTotal ts flow dim k) else none := by
  intro ts
  induction ts with
  | nil =>
    intro d tot k hv
    simp [matched, hv]
  | cons t ts ih =>
    intro d tot k hv
    cases h : matchedRow flow dim t with
    | none =>
      rw [List.foldl_cons, statsStep, h, ih _ _ _ hv, matched_cons, h,
        groupTotal_cons_none h]
    | some p =>
      rw [List.foldl_cons, statsStep, h]
      by_cases hk : p.1 = k
      · have h1 : dlookup k (dictAdd p.1 p.2 d) = some p.2 := by
          rw [hk, dlookup_dictAdd_self, hv]
          simp
        rw [statsGo_lookup_some flow dim _ _ _ _ _ h1, groupTotal_cons_some h, if_pos hk,
          matched_cons, h]
        simp [hk]
      · have h1 : dlookup k (dictAdd p.1 p.2 d) = none := by
          rw [dlookup_dictAdd_ne _ _ _ _ (fun hh => hk hh.symm), hv]
        rw [ih _ _ _ h1, matched_cons, h, groupTotal_cons_some h, if_neg hk, zero_add]
        have hkp : ¬ k = p.1 := fun hh => hk hh.symm
        have hiff : k ∈ (p :: matched ts flow dim).map Prod.fst ↔
            k ∈ (matched ts flow dim).map Prod.fst := by
          rw [List.map_cons, List.mem_cons]
          exact ⟨fun hc => hc.resolve_left hkp, Or.inr⟩
        rw [if_congr hiff rfl rfl]

theorem statsGo_nodup (flow : String) (dim : ℕ) :
    ∀ (ts : List (List Field)) (d : List (String × ℚ)) (tot : ℚ),
      (d.map Prod.fst).Nodup →
      (((ts.foldl (statsStep flow dim) (d, tot)).1).map Prod.fst).Nodup := by
  intro ts
  induction ts with
  | nil => intro d tot hd; simpa using hd
  | cons t ts ih =>
    intro d tot hd
    cases h : matchedRow flow dim t with
    | none => rw [List.foldl_cons, statsStep, h]; exact ih _ _ hd
    | some p =>
      rw [List.foldl_cons, statsStep, h]
      exact ih _ _ (nodup_keys_dictAdd _ _ _ hd)

theorem statsGo_sum (flow : String) (dim : ℕ) :
    ∀ (ts : List (List Field)) (d : List (String × ℚ)) (tot : ℚ),
      (((ts.foldl (statsStep flow dim) (d, tot)).1).map Prod.snd).sum =
        (d.map Prod.snd).sum + totalAmount ts flow dim := by
  intro ts
  induction ts with
  | nil => intro d tot; simp [totalAmount, matched]
  | cons t ts ih =>
    intro d tot
    cases h : matchedRow flow dim t with
    | none =>
      rw [List.foldl_cons, statsStep, h, ih, totalAmount_cons_none h]
    | some p =>
      rw [List.foldl_cons, statsStep, h, ih, sum_dictAdd, totalAmount_cons_some h]
      ring

theorem statsFold_snd (flow : String) (dim : ℕ) (ts : List (List Field)) :
    (statsFold flow dim ts).2 = totalAmount ts flow dim := by
  rw [statsFold, statsGo_snd]
  simp

theorem statsFold_lookup (flow : String) (dim : ℕ) (ts : List (List Field)) (k : String) :
    dlookup k (statsFold flow dim ts).1 =
      if k ∈ (matched ts flow dim).map Prod.fst
        then some (groupTotal ts flow dim k) else none := by
  rw [statsFold, statsGo_lookup_none flow dim ts [] 0 k rfl]

theorem statsFold_keys (flow : String) (dim : ℕ) (ts : List (List Field)) (k : String) :
    k ∈ ((statsFold flow dim ts).1).map Prod.fst ↔
      k ∈ (matched ts flow dim).map Prod.fst := by
  rw [← dlookup_isSome_iff, statsFold_lookup]
  by_cases h : k ∈ (matched ts flow dim).map Prod.fst <;> simp [h]

theorem statsFold_nodup (flow : String) (dim : ℕ) (ts : List (List Field)) :
    (((statsFold flow dim ts).1).map Prod.fst).Nodup := by
  rw [statsFold]
  exact statsGo_nodup flow dim ts [] 0 (by simp)

theorem statsFold_sum (flow : String) (dim : ℕ) (ts : List (List Field)) :
    (((statsFold flow dim ts).1).map Prod.snd).sum = totalAmount ts flow dim := by
  rw [statsFold, statsGo_sum]
  simp

theorem statsFold_mem {flow : String} {dim : ℕ} {ts : List (List Field)}
    {p : String × ℚ} (h : p ∈ (statsFold flow dim ts).1) :
    p.1 ∈ (matched ts flow dim).map Prod.fst ∧ p.2 = groupTotal ts flow dim p.1 := by
  have h1 : dlookup p.1 (statsFold flow dim ts).1 = some p.2 :=
    dlookup_eq_some_of_mem (statsFold_nodup flow dim ts) (by cases p; exact h)
  have h2 : p.1 ∈ (matched ts flow dim).map Prod.fst := by
    rw [← statsFold_keys flow dim ts]
    exact List.mem_map.2 ⟨p, h, rfl⟩
  refine ⟨h2, ?_⟩
  rw [statsFold_lookup, if_pos h2] at h1
  exact (Option.some.injEq _ _ ▸ h1).symm

theorem statsFold_mem_of_key {flow : String} {dim : ℕ} {ts : List (List Field)}
    {k : String} (h : k ∈ (matched ts flow dim).map Prod.fst) :
    (k, groupTotal ts flow dim k) ∈ (statsFold flow dim ts).1 := by
  apply mem_of_dlookup
  rw [statsFold_lookup, if_pos h]

theorem statsFold_length (flow : String) (dim : ℕ) (ts : List (List Field)) :
    (statsFold flow dim ts).1.length = numGroups ts flow dim := by
  have h1 : List.Perm ((statsFold flow dim ts).1.map Prod.fst)
      (((matched ts flow dim).map Prod.fst).dedup) := by
    rw [List.perm_ext_iff_of_nodup (statsFold_nodup flow dim ts) (List.nodup_dedup _)]
    intro a
    rw [statsFold_keys, List.mem_dedup]
  have h2 := h1.length_eq
  rw [List.length_map] at h2
  rw [h2, numGroups]

/-! ### The aggregator contract -/

/-- The behaviour the specification ascribes to the aggregator: at most
the top five groups, sorted descending by summed amount, each paired with
its group total and with `100 * group_total / total_amount` (0 when the
flow total is not positive), the group names pairwise distinct, every
group left out totalling no more than every group kept, and all groups
kept whenever there are at most five. -/
def AggSpec (ts : List (List Field)) (flow : String) (dim : ℕ)
    (out : List (String × ℚ × ℚ)) : Prop :=
  out.length = min 5 (numGroups ts flow dim) ∧
  List.Sorted (fun x y : String × ℚ × ℚ => y.2.1 ≤ x.2.1) out ∧
  (∀ x ∈ out, x.1 ∈ (matched ts flow dim).map Prod.fst ∧
    x.2.1 = groupTotal ts flow dim x.1 ∧
    x.2.2 = (if 0 < totalAmount ts flow dim
      then groupTotal ts flow dim x.1 / totalAmount ts flow dim * 100 else 0)) ∧
  (out.map (fun x => x.1)).Nodup ∧
  (∀ name, name ∈ (matched ts flow dim).map Prod.fst →
    name ∉ out.map (fun x => x.1) →
    ∀ x ∈ out, groupTotal ts flow dim name ≤ x.2.1)

theorem calcStats_spec (ts : List (List Field)) (flow : String) (dim : ℕ) :
    AggSpec ts flow dim (calcStats ts flow dim) := by
  have hout : calcStats ts flow dim =
      ((List.insertionSort byTotalDesc (statsFold flow dim ts).1).take 5).map
        (fun g => (g.1, g.2, if 0 < (statsFold flow dim ts).2
          then g.2 / (statsFold flow dim ts).2 * 100 else 0)) := rfl
  have hperm : List.Perm (List.insertionSort byTotalDesc (statsFold flow dim ts).1)
      (statsFold flow dim ts).1 := List.perm_insertionSort _ _
  have hsorted : List.Sorted byTotalDesc
      (List.insertionSort byTotalDesc (statsFold flow dim ts).1) :=
    List.sorted_insertionSort _ _
  have htake : List.Sublist
      ((List.insertionSort byTotalDesc (statsFold flow dim ts).1).take 5)
      (List.insertionSort byTotalDesc (statsFold flow dim ts).1) := List.take_sublist _ _
  refine ⟨?_, ?_, ?_, ?_, ?_⟩
  · rw [hout, List.length_map, List.length_take, hperm.length_eq, statsFold_length]
  · rw [hout, List.Sorted, List.pairwise_map]
    exact (hsorted.sublist htake).imp (fun h => h)
  · intro x hx
    rw [hout] at hx
    obtain ⟨g, hg, rfl⟩ := List.mem_map.1 hx
    have hgD : g ∈ (statsFold flow dim ts).1 := hperm.mem_iff.1 (htake.subset hg)
    obtain ⟨h1, h2⟩ := statsFold_mem hgD
    exact ⟨h1, h2, by rw [statsFold_snd, h2]⟩
  · rw [hout, List.map_map]
    have hDn : ((statsFold flow dim ts).1.map Prod.fst).Nodup := statsFold_nodup flow dim ts
    have hSn : ((List.insertionSort byTotalDesc (statsFold flow dim ts).1).map
        Prod.fst).Nodup := ((hperm.map Prod.fst).nodup_iff).2 hDn
    exact (hSn.sublist (htake.map Prod.fst))
  · intro name hname hnot x hx
    rw [hout] at hx
    obtain ⟨g, hg, rfl⟩ := List.mem_map.1 hx
    have hpair : (name, groupTotal ts flow dim name) ∈
        List.insertionSort byTotalDesc (statsFold flow dim ts).1 :=
      hperm.mem_iff.2 (statsFold_mem_of_key hname)
    have hnotake : (name, groupTotal ts flow dim name) ∉
        (List.insertionSort byTotalDesc (statsFold flow dim ts).1).take 5 := by
      intro hmem
      apply hnot
      rw [hout, List.map_map]
      exact List.mem_map.2 ⟨_, hmem, rfl⟩
    have hdrop : (name, groupTotal ts flow dim name) ∈
        (List.insertionSort byTotalDesc (statsFold flow dim ts).1).drop 5 := by
      have := List.take_append_drop 5
        (List.insertionSort byTotalDesc (statsFold flow dim ts).1)
      rcases List.mem_append.1 (by rw [this]; exact hpair) with hmem | hmem
      · exact absurd hmem hnotake
      · exact hmem
    have hsplit := hsorted
    rw [List.Sorted, ← List.take_append_drop 5
      (List.insertionSort byTotalDesc (statsFold flow dim ts).1),
      List.pairwise_append] at hsplit
    exact hsplit.2.2 g hg _ hdrop

/-! ### Skipping and empty-input lemmas for the aggregator -/

theorem matchedRow_none_of_num {flow : String} {dim : ℕ} {t : List Field}
    (h : fieldNum t 2 = none) : matchedRow flow dim t = none := by
  rw [matchedRow]
  split
  · rw [h]
  · rfl

theorem statsFold_insert_skip (flow : String) (dim : ℕ) (l l2 : List (List Field))
    (r : List Field) (h : matchedRow flow dim r = none) :
    statsFold flow dim (l ++ r :: l2) = statsFold flow dim (l ++ l2) := by
  rw [statsFold, statsFold, List.foldl_append, List.foldl_append, List.foldl_cons]
  have hstep : statsStep flow dim (List.foldl (statsStep flow dim) ([], 0) l) r =
      List.foldl (statsStep flow dim) ([], 0) l := by
    rw [statsStep, h]
  rw [hstep]

theorem calcStats_congr_fold {ts ts2 : List (List Field)} {flow : String} {dim : ℕ}
    (h : statsFold flow dim ts = statsFold flow dim ts2) :
    calcStats ts flow dim = calcStats ts2 flow dim := by
  unfold calcStats
  rw [h]

theorem statsFold_all_none (flow : String) (dim : ℕ) :
    ∀ ts : List (List Field), (∀ r ∈ ts, matchedRow flow dim r = none) →
      statsFold flow dim ts = ([], 0) := by
  intro ts
  induction ts with
  | nil => intro _; rfl
  | cons t ts ih =>
    intro h
    have h0 : statsStep flow dim ([], 0) t = ([], 0) := by
      rw [statsStep, h t (List.mem_cons_self _ _)]
    rw [statsFold, List.foldl_cons, h0]
    exact ih (fun r hr => h r (List.mem_cons_of_mem _ hr))

theorem calcStats_all_none {flow : String} {dim : ℕ} {ts : List (List Field)}
    (h : ∀ r ∈ ts, matchedRow flow dim r = none) : calcStats ts flow dim = [] := by
  unfold calcStats
  rw [statsFold_all_none flow dim ts h]
  rfl

/-! ### The totals reduction as a pair of declarative sums -/

theorem flowSum_cons (m : ℕ) (flow : String) (t : List Field) (ts : List (List Field)) :
    flowSum m flow (t :: ts) =
      (if m ≤ t.length ∧ fieldRaw t 0 = flow then fieldNum t 2 else none).getD 0 +
        flowSum m flow ts := by
  rw [flowSum, flowSum, List.filterMap_cons]
  cases h : (if m ≤ t.length ∧ fieldRaw t 0 = flow then fieldNum t 2 else none) with
  | none => simp
  | some a => simp

theorem totalsGo (m : ℕ) :
    ∀ (ts : List (List Field)) (acc : ℚ × ℚ),
      ts.foldl (totalsStep m) acc =
        (acc.1 + flowSum m "Expense" ts, acc.2 + flowSum m "Income" ts) := by
  intro ts
  induction ts with
  | nil => intro acc; simp [flowSum]
  | cons t ts ih =>
    intro acc
    rw [List.foldl_cons, ih, flowSum_cons, flowSum_cons, totalsStep]
    by_cases hlen : m ≤ t.length
    · rw [if_pos hlen]
      cases hnum : fieldNum t 2 with
      | none => simp [hlen, hnum]
      | some a =>
        by_cases hexp : fieldRaw t 0 = "Expense"
        · have hinc : ¬ fieldRaw t 0 = "Income" := by
            rw [hexp]; decide
          simp [hlen, hnum, hexp, hinc]
          ring
        · by_cases hinc : fieldRaw t 0 = "Income"
          · simp [hlen, hnum, hexp, hinc]
            ring
          · simp [hlen, hnum, hexp, hinc]
    · simp [totalsStep, hlen]

theorem calculate_totals_eq (ts : List (List Field)) :
    calculate_totals ts = (flowSum 3 "Expense" ts, flowSum 3 "Income" ts) := by
  rw [calculate_totals, totalsGo]
  simp

theorem calculate_all_time_totals_eq (rows : List (List Field)) :
    calculate_all_time_totals (some rows) =
      (flowSum 5 "Expense" rows, flowSum 5 "Income" rows) := by
  rw [calculate_all_time_totals, totalsGo]
  simp

theorem totals_insert_skip (l l2 : List (List Field)) (r : List Field)
    (h : ¬ (3 ≤ r.length ∧ (fieldNum r 2).isSome = true)) :
    calculate_totals (l ++ r :: l2) = calculate_totals (l ++ l2) := by
  rw [calculate_totals, calculate_totals, List.foldl_append, List.foldl_append,
    List.foldl_cons]
  have hstep : ∀ acc : ℚ × ℚ, totalsStep 3 acc r = acc := by
    intro acc
    rw [totalsStep]
    by_cases hlen : 3 ≤ r.length
    · cases hnum : fieldNum r 2 with
      | none => simp [hlen, hnum]
      | some a => exact absurd ⟨hlen, by rw [hnum]; rfl⟩ h
    · simp [hlen]
  rw [hstep]

/-- The amounts the aggregator accumulates are exactly the flow sums over
rows with at least five cells. -/
theorem totalAmount_eq_flowSum (ts : List (List Field)) (flow : String) (dim : ℕ) :
    totalAmount ts flow dim = flowSum 5 flow ts := by
  rw [totalAmount, matched, flowSum, List.map_filterMap]
  have hfun : (fun x : List Field => Option.map Prod.snd (matchedRow flow dim x)) =
      (fun t : List Field =>
        if 5 ≤ t.length ∧ fieldRaw t 0 = flow then fieldNum t 2 else none) := by
    funext t
    rw [matchedRow]
    by_cases hc : 5 ≤ t.length ∧ fieldRaw t 0 = flow
    · rw [if_pos hc, if_pos hc]
      cases h : fieldNum t 2 <;> simp
    · rw [if_neg hc, if_neg hc]
      rfl
  rw [hfun]

/-! ### Positivity and top-five sum lemmas -/

theorem groupTotal_pos {ts : List (List Field)} {flow : String} {dim : ℕ}
    (hpos : ∀ p ∈ matched ts flow dim, 0 < p.2) {k : String}
    (hk : k ∈ (matched ts flow dim).map Prod.fst) :
    0 < groupTotal ts flow dim k := by
  rw [groupTotal]
  apply List.sum_pos
  · intro x hx
    obtain ⟨p, hp, rfl⟩ := List.mem_map.1 hx
    exact hpos p (List.mem_filter.1 hp).1
  · obtain ⟨p, hp, hpk⟩ := List.mem_map.1 hk
    have hmem : p ∈ (matched ts flow dim).filter (fun p => p.1 = k) :=
      List.mem_filter.2 ⟨hp, by simp [hpk]⟩
    exact List.ne_nil_of_mem (List.mem_map.2 ⟨p, hmem, rfl⟩)

theorem statsFold_pos {ts : List (List Field)} {flow : String} {dim : ℕ}
    (hpos : ∀ p ∈ matched ts flow dim, 0 < p.2) :
    ∀ p ∈ (statsFold flow dim ts).1, 0 < p.2 := by
  intro p hp
  obtain ⟨h1, h2⟩ := statsFold_mem hp
  rw [h2]
  exact groupTotal_pos hpos h1

theorem totalAmount_pos {ts : List (List Field)} {flow : String} {dim : ℕ}
    (hpos : ∀ p ∈ matched ts flow dim, 0 < p.2) (hne : matched ts flow dim ≠ []) :
    0 < totalAmount ts flow dim := by
  rw [totalAmount]
  apply List.sum_pos
  · intro x hx
    obtain ⟨p, hp, rfl⟩ := List.mem_map.1 hx
    exact hpos p hp
  · intro h
    exact hne (List.map_eq_nil_iff.1 h)

theorem statsFold_fst_nil {ts : List (List Field)} {flow : String} {dim : ℕ}
    (h : matched ts flow dim = []) : (statsFold flow dim ts).1 = [] := by
  cases hD : (statsFold flow dim ts).1 with
  | nil => rfl
  | cons p rest =>
    have hk : p.1 ∈ ((statsFold flow dim ts).1).map Prod.fst := by
      rw [hD]
      exact List.mem_map.2 ⟨p, List.mem_cons_self _ _, rfl⟩
    rw [statsFold_keys, h] at hk
    simp at hk

theorem top5_sum_facts (ts : List (List Field)) (flow : String) (dim : ℕ)
    (hpos : ∀ p ∈ matched ts flow dim, 0 < p.2) :
    (((List.insertionSort byTotalDesc (statsFold flow dim ts).1).take 5).map
        Prod.snd).sum ≤ totalAmount ts flow dim ∧
    ((((List.insertionSort byTotalDesc (statsFold flow dim ts).1).take 5).map
        Prod.snd).sum = totalAmount ts flow dim ↔ numGroups ts flow dim ≤ 5) := by
  have hperm : List.Perm (List.insertionSort byTotalDesc (statsFold flow dim ts).1)
      (statsFold flow dim ts).1 := List.perm_insertionSort _ _
  set S := List.insertionSort byTotalDesc (statsFold flow dim ts).1 with hS
  have hsum : (S.map Prod.snd).sum = totalAmount ts flow dim := by
    rw [← statsFold_sum flow dim ts]
    exact (hperm.map Prod.snd).sum_eq
  have hsplit : ((S.take 5).map Prod.snd).sum + ((S.drop 5).map Prod.snd).sum =
      totalAmount ts flow dim := by
    rw [← hsum, ← List.sum_append, ← List.map_append, List.take_append_drop]
  have hdpos : ∀ x ∈ (S.drop 5).map Prod.snd, 0 < x := by
    intro x hx
    obtain ⟨p, hp, rfl⟩ := List.mem_map.1 hx
    have hpS : p ∈ S := (List.drop_sublist _ _).subset hp
    exact statsFold_pos hpos p (hperm.mem_iff.1 hpS)
  have hdnneg : 0 ≤ ((S.drop 5).map Prod.snd).sum :=
    List.sum_nonneg (fun x hx => le_of_lt (hdpos x hx))
  refine ⟨by linarith, ?_, ?_⟩
  · intro heq
    have hzero : ((S.drop 5).map Prod.snd).sum = 0 := by linarith
    have hnil : S.drop 5 = [] := by
      by_contra hne
      have hne2 : (S.drop 5).map Prod.snd ≠ [] := by
        simpa [List.map_eq_nil_iff] using hne
      have := List.sum_pos _ hdpos hne2
      linarith
    have hlen5 : S.length ≤ 5 := by
      rwa [List.drop_eq_nil_iff] at hnil
    rw [← statsFold_length flow dim ts, ← hperm.length_eq]
    exact hlen5
  · intro hle
    have hlen5 : S.length ≤ 5 := by
      rw [hperm.length_eq, statsFold_length]
      exact hle
    rw [List.take_of_length_le hlen5] at hsplit ⊢
    rw [List.drop_eq_nil_of_le hlen5] at hsplit
    simpa using hsplit

theorem sum_map_div_mul (l : List (String × ℚ)) (tot : ℚ) :
    (l.map (fun g => g.2 / tot * 100)).sum = (l.map Prod.snd).sum / tot * 100 := by
  induction l with
  | nil => simp
  | cons p rest ih =>
    simp [List.map_cons, List.sum_cons, ih, add_div, add_mul]

theorem flowSum_three_eq_five {ts : List (List Field)}
    (hlen : ∀ r ∈ ts, 5 ≤ r.length) (flow : String) :
    flowSum 3 flow ts = flowSum 5 flow ts := by
  induction ts with
  | nil => rfl
  | cons t ts ih =>
    have h5 : 5 ≤ t.length := hlen t (List.mem_cons_self _ _)
    have h3 : 3 ≤ t.length := le_trans (by norm_num) h5
    rw [flowSum_cons, flowSum_cons, ih (fun r hr => hlen r (List.mem_cons_of_mem _ hr))]
    by_cases hf : fieldRaw t 0 = flow
    · simp [h3, h5, hf]
    · simp [h3, h5, hf]

/-! ### Python min and max over a nonempty list -/

theorem listMin_mem : ∀ (ds : List ℤ) (d : ℤ), listMin d ds ∈ d :: ds := by
  intro ds
  induction ds with
  | nil => intro d; simp [listMin]
  | cons a ds ih =>
    intro d
    have hstep : listMin d (a :: ds) = listMin (min d a) ds := rfl
    rw [hstep]
    rcases List.mem_cons.1 (ih (min d a)) with h1 | h1
    · rcases min_choice d a with h2 | h2
      · rw [h1, h2]
        exact List.mem_cons_self _ _
      · rw [h1, h2]
        exact List.mem_cons_of_mem _ (List.mem_cons_self _ _)
    · exact List.mem_cons_of_mem _ (List.mem_cons_of_mem _ h1)

theorem listMin_le : ∀ (ds : List ℤ) (d x : ℤ), x ∈ d :: ds → listMin d ds ≤ x := by
  intro ds
  induction ds with
  | nil =>
    intro d x hx
    simp at hx
    simp [listMin, hx]
  | cons a ds ih =>
    intro d x hx
    have hstep : listMin d (a :: ds) = listMin (min d a) ds := rfl
    have hhead : listMin (min d a) ds ≤ min d a := ih _ _ (List.mem_cons_self _ _)
    rw [hstep]
    rcases List.mem_cons.1 hx with h1 | h1
    · rw [h1]
      exact le_trans hhead (min_le_left _ _)
    · rcases List.mem_cons.1 h1 with h2 | h2
      · rw [h2]
        exact le_trans hhead (min_le_right _ _)
      · exact ih _ _ (List.mem_cons_of_mem _ h2)

theorem listMax_mem : ∀ (ds : List ℤ) (d : ℤ), listMax d ds ∈ d :: ds := by
  intro ds
  induction ds with
  | nil => intro d; simp [listMax]
  | cons a ds ih =>
    intro d
    have hstep : listMax d (a :: ds) = listMax (max d a) ds := rfl
    rw [hstep]
    rcases List.mem_cons.1 (ih (max d a)) with h1 | h1
    · rcases max_choice d a with h2 | h2
      · rw [h1, h2]
        exact List.mem_cons_self _ _
      · rw [h1, h2]
        exact List.mem_cons_of_mem _ (List.mem_cons_self _ _)
    · exact List.mem_cons_of_mem _ (List.mem_cons_of_mem _ h1)

theorem le_listMax : ∀ (ds : List ℤ) (d x : ℤ), x ∈ d :: ds → x ≤ listMax d ds := by
  intro ds
  induction ds with
  | nil =>
    intro d x hx
    simp at hx
    simp [listMax, hx]
  | cons a ds ih =>
    intro d x hx
    have hstep : listMax d (a :: ds) = listMax (max d a) ds := rfl
    have hhead : max d a ≤ listMax (max d a) ds := ih _ _ (List.mem_cons_self _ _)
    rw [hstep]
    rcases List.mem_cons.1 hx with h1 | h1
    · rw [h1]
      exact le_trans (le_max_left _ _) hhead
    · rcases List.mem_cons.1 h1 with h2 | h2
      · rw [h2]
        exact le_trans (le_max_right _ _) hhead
      · exact ih _ _ (List.mem_cons_of_mem _ h2)

theorem listMin_eq {ds : List ℤ} {d e : ℤ} (hmem : e ∈ d :: ds)
    (hlb : ∀ x ∈ d :: ds, e ≤ x) : listMin d ds = e :=
  le_antisymm (listMin_le ds d e hmem) (hlb _ (listMin_mem ds d))

theorem listMax_eq {ds : List ℤ} {d e : ℤ} (hmem : e ∈ d :: ds)
    (hub : ∀ x ∈ d :: ds, x ≤ e) : listMax d ds = e :=
  le_antisymm (hub _ (listMax_mem ds d)) (le_listMax ds d e hmem)

/-! ### Claim theorems -/

/-- C2: for every transaction sequence and flow, calculate_label_stats
(grouping dimension 1, the label cell) and calculate_type_stats
(dimension 3, the type cell) restrict to rows of that flow whose amount
parses, sum amounts per group, sort descending by summed amount, return
at most the top 5 groups, and attach percentage
100 * group_total / total_amount when total_amount > 0 and 0 otherwise,
with total_amount the sum over all matching rows of the flow. -/
theorem C2_aggregate_contract (ts : List (List Field)) (flow : String) :
    AggSpec ts flow 1 (calculate_label_stats ts flow) ∧
    AggSpec ts flow 3 (calculate_type_stats ts flow) :=
  ⟨calcStats_spec ts flow 1, calcStats_spec ts flow 3⟩

/-- C3 counterexample: with a negative amount in the log the aggregator
returns a percentage of 200, outside [0, 100], refuting the claim as
stated for arbitrary transaction sequences. -/
theorem C3_counterexample :
    calculate_label_stats
        [sampleRow "Expense" "A" 10 "T" 0, sampleRow "Expense" "B" (-5) "T" 0]
        "Expense" = [("A", 10, 200), ("B", -5, -100)] ∧
    ¬ ((200 : ℚ) ≤ 100) := by
  constructor
  · norm_num +decide [calculate_label_stats, calcStats, statsFold, statsStep, matchedRow,
      dictAdd, sampleRow, mkStr, mkNum, mkDate, fieldRaw, fieldNum, byTotalDesc]
  · norm_num

/-- C3 amended: when every amount the aggregator accepts for the flow is
positive, each percentage lies in [0, 100] and the percentages sum to at
most 100, with equality exactly when some row matches and the top five
groups cover all groups (at most five distinct group names). -/
theorem C3_percentages (ts : List (List Field)) (flow : String) (dim : ℕ)
    (hpos : ∀ p ∈ matched ts flow dim, 0 < p.2) :
    (∀ x ∈ calcStats ts flow dim, 0 ≤ x.2.2 ∧ x.2.2 ≤ 100) ∧
    ((calcStats ts flow dim).map (fun x => x.2.2)).sum ≤ 100 ∧
    (((calcStats ts flow dim).map (fun x => x.2.2)).sum = 100 ↔
      matched ts flow dim ≠ [] ∧ numGroups ts flow dim ≤ 5) := by
  by_cases hne : matched ts flow dim = []
  · have hD : (statsFold flow dim ts).1 = [] := statsFold_fst_nil hne
    have hout : calcStats ts flow dim = [] := by
      have hrfl : calcStats ts flow dim =
          ((List.insertionSort byTotalDesc (statsFold flow dim ts).1).take 5).map
            (fun g => (g.1, g.2, if 0 < (statsFold flow dim ts).2
              then g.2 / (statsFold flow dim ts).2 * 100 else 0)) := rfl
      rw [hrfl, hD]
      rfl
    refine ⟨by simp [hout], by simp [hout], ?_⟩
    rw [hout]
    constructor
    · intro habs
      simp at habs
    · rintro ⟨habs, _⟩
      exact absurd hne habs
  · have htot : 0 < totalAmount ts flow dim := totalAmount_pos hpos hne
    have hsndpos : 0 < (statsFold flow dim ts).2 := by
      rw [statsFold_snd]
      exact htot
    have hout : calcStats ts flow dim =
        ((List.insertionSort byTotalDesc (statsFold flow dim ts).1).take 5).map
          (fun g => (g.1, g.2, g.2 / totalAmount ts flow dim * 100)) := by
      unfold calcStats
      simp only [statsFold_snd, htot, if_true]
    have hperm : List.Perm (List.insertionSort byTotalDesc (statsFold flow dim ts).1)
        (statsFold flow dim ts).1 := List.perm_insertionSort _ _
    have hval : ∀ g ∈ (List.insertionSort byTotalDesc (statsFold flow dim ts).1).take 5,
        0 < g.2 ∧ g.2 ≤ totalAmount ts flow dim := by
      intro g hg
      have hgD : g ∈ (statsFold flow dim ts).1 :=
        hperm.mem_iff.1 ((List.take_sublist _ _).subset hg)
      refine ⟨statsFold_pos hpos g hgD, ?_⟩
      have hmem : g.2 ∈ ((statsFold flow dim ts).1).map Prod.snd :=
        List.mem_map.2 ⟨g, hgD, rfl⟩
      have := List.single_le_sum
        (fun x hx => by
          obtain ⟨p, hp, rfl⟩ := List.mem_map.1 hx
          exact le_of_lt (statsFold_pos hpos p hp)) _ hmem
      rwa [statsFold_sum] at this
    have hsumeq : ((calcStats ts flow dim).map (fun x => x.2.2)).sum =
        (((List.insertionSort byTotalDesc (statsFold flow dim ts).1).take 5).map
          Prod.snd).sum / totalAmount ts flow dim * 100 := by
      rw [hout, List.map_map]
      have : ((fun x : String × ℚ × ℚ => x.2.2) ∘
          (fun g : String × ℚ => (g.1, g.2, g.2 / totalAmount ts flow dim * 100))) =
          (fun g : String × ℚ => g.2 / totalAmount ts flow dim * 100) := rfl
      rw [this, sum_map_div_mul]
    obtain ⟨hle, hiff⟩ := top5_sum_facts ts flow dim hpos
    refine ⟨?_, ?_, ?_⟩
    · intro x hx
      rw [hout] at hx
      obtain ⟨g, hg, rfl⟩ := List.mem_map.1 hx
      obtain ⟨hg1, hg2⟩ := hval g hg
      constructor
      · have : 0 < g.2 / totalAmount ts flow dim * 100 :=
          mul_pos (div_pos hg1 htot) (by norm_num)
        exact le_of_lt this
      · calc g.2 / totalAmount ts flow dim * 100
            ≤ 1 * 100 := by
              apply mul_le_mul_of_nonneg_right _ (by norm_num)
              exact (div_le_one htot).2 hg2
          _ = 100 := one_mul 100
    · rw [hsumeq]
      calc (((List.insertionSort byTotalDesc (statsFold flow dim ts).1).take 5).map
            Prod.snd).sum / totalAmount ts flow dim * 100
          ≤ 1 * 100 := by
            apply mul_le_mul_of_nonneg_right _ (by norm_num)
            exact (div_le_one htot).2 hle
        _ = 100 := one_mul 100
    · rw [hsumeq]
      have h100 : (100 : ℚ) ≠ 0 := by norm_num
      constructor
      · intro heq
        have h1 : (((List.insertionSort byTotalDesc (statsFold flow dim ts).1).take 5).map
            Prod.snd).sum / totalAmount ts flow dim = 1 := by
          apply mul_right_cancel₀ h100
          rw [heq, one_mul]
        have h2 := (div_eq_one_iff_eq (ne_of_gt htot)).1 h1
        exact ⟨hne, hiff.1 h2⟩
      · rintro ⟨_, hg5⟩
        rw [hiff.2 hg5, div_self (ne_of_gt htot), one_mul]

/-- Witness for C3: the one-group positive example satisfies the bound. -/
theorem C3_percentages_witness :
    ((calcStats [sampleRow "Expense" "L" 10 "T" 0] "Expense" 1).map
      (fun x => x.2.2)).sum ≤ 100 := by
  have hm : matched [sampleRow "Expense" "L" 10 "T" 0] "Expense" 1 = [("L", 10)] := by
    norm_num +decide [matched, matchedRow, sampleRow, mkStr, mkNum, mkDate,
      fieldRaw, fieldNum, List.filterMap_cons]
  refine (C3_percentages [sampleRow "Expense" "L" 10 "T" 0] "Expense" 1 ?_).2.1
  intro p hp
  rw [hm] at hp
  simp at hp
  rw [hp]
  norm_num

/-- C4 counterexample: with a sixth, negative-amount label the top five
group totals sum to 50 while the flow total is 45, refuting the claimed
inequality for arbitrary transaction sequences. -/
theorem C4_counterexample :
    ((calculate_label_stats sixLabelRows "Expense").map (fun x => x.2.1)).sum = 50 ∧
    total_for (calculate_totals sixLabelRows) "Expense" = 45 ∧
    ¬ ((50 : ℚ) ≤ 45) := by
  refine ⟨?_, ?_, by norm_num⟩
  · norm_num +decide [calculate_label_stats, calcStats, statsFold, statsStep, matchedRow,
      dictAdd, sixLabelRows, sampleRow, mkStr, mkNum, mkDate, fieldRaw, fieldNum,
      byTotalDesc]
  · norm_num +decide [calculate_totals, totalsStep, total_for, sixLabelRows, sampleRow,
      mkStr, mkNum, mkDate, fieldRaw, fieldNum]

/-- C4 amended: when every row has at least 5 cells and every amount the
aggregator accepts for the flow is positive, the sum of the returned
label-group totals is at most the flow total of the balance calculator,
with equality only when the flow has at most five distinct labels. -/
theorem C4_top5_le_totals (ts : List (List Field)) (flow : String)
    (hlen : ∀ r ∈ ts, 5 ≤ r.length)
    (hflow : flow = "Expense" ∨ flow = "Income")
    (hpos : ∀ p ∈ matched ts flow 1, 0 < p.2) :
    ((calculate_label_stats ts flow).map (fun x => x.2.1)).sum ≤
      total_for (calculate_totals ts) flow ∧
    (((calculate_label_stats ts flow).map (fun x => x.2.1)).sum =
        total_for (calculate_totals ts) flow → numGroups ts flow 1 ≤ 5) := by
  have htotals : total_for (calculate_totals ts) flow = totalAmount ts flow 1 := by
    rw [calculate_totals_eq, totalAmount_eq_flowSum, ← flowSum_three_eq_five hlen flow]
    rcases hflow with h | h <;> simp [h, total_for]
  have hmap : (calculate_label_stats ts flow).map (fun x => x.2.1) =
      ((List.insertionSort byTotalDesc (statsFold flow 1 ts).1).take 5).map Prod.snd := by
    rw [calculate_label_stats, calcStats, List.map_map]
    rfl
  obtain ⟨hle, hiff⟩ := top5_sum_facts ts flow 1 hpos
  constructor
  · rw [hmap, htotals]
    exact hle
  · intro heq
    rw [hmap, htotals] at heq
    exact hiff.1 heq

/-- Witness for C4: a single positive expense row meets the hypotheses
and the inequality. -/
theorem C4_top5_le_totals_witness :
    ((calculate_label_stats [sampleRow "Expense" "L" 10 "T" 0] "Expense").map
      (fun x => x.2.1)).sum ≤
      total_for (calculate_totals [sampleRow "Expense" "L" 10 "T" 0]) "Expense" := by
  have hm : matched [sampleRow "Expense" "L" 10 "T" 0] "Expense" 1 = [("L", 10)] := by
    norm_num +decide [matched, matchedRow, sampleRow, mkStr, mkNum, mkDate,
      fieldRaw, fieldNum, List.filterMap_cons]
  refine (C4_top5_le_totals [sampleRow "Expense" "L" 10 "T" 0] "Expense" ?_ (Or.inl rfl)
    ?_).1
  · intro r hr
    simp at hr
    rw [hr]
    norm_num [sampleRow]
  · intro p hp
    rw [hm] at hp
    simp at hp
    rw [hp]
    norm_num

/-- C5 counterexample: a negative numeric amount is not skipped by the
grouping: the single matching transaction with amount -5 produces the
group ("L", -5, 0) instead of the empty result the claim predicts. -/
theorem C5_counterexample :
    calculate_label_stats [sampleRow "Expense" "L" (-5) "T" 0] "Expense" =
      [("L", -5, 0)] ∧
    ([("L", (-5 : ℚ), (0 : ℚ))] : List (String × ℚ × ℚ)) ≠ [] := by
  constructor
  · norm_num +decide [calculate_label_stats, calcStats, statsFold, statsStep, matchedRow,
      dictAdd, sampleRow, mkStr, mkNum, mkDate, fieldRaw, fieldNum, byTotalDesc]
  · simp

/-- C5 amended: a row whose amount cell does not parse as a number is
skipped by both aggregators (it contributes to neither a group nor the
flow total and raises nothing); a row the flow accepts contributes its
amount — whatever its sign, negative included — to the accumulated flow
total and to its group entry; and a sequence with no matching row yields
the empty result. -/
theorem C5_skip_rules :
    (∀ (flow : String) (l l2 : List (List Field)) (r : List Field),
      fieldNum r 2 = none →
        calculate_label_stats (l ++ r :: l2) flow = calculate_label_stats (l ++ l2) flow ∧
        calculate_type_stats (l ++ r :: l2) flow = calculate_type_stats (l ++ l2) flow) ∧
    (∀ (flow : String) (dim : ℕ) (l : List (List Field)) (r : List Field)
        (k : String) (a : ℚ),
      matchedRow flow dim r = some (k, a) →
        (statsFold flow dim (l ++ [r])).2 = (statsFold flow dim l).2 + a ∧
        dlookup k (statsFold flow dim (l ++ [r])).1 =
          some ((dlookup k (statsFold flow dim l).1).getD 0 + a)) ∧
    (∀ (flow : String) (ts : List (List Field)),
      (∀ r ∈ ts, matchedRow flow 1 r = none) → calculate_label_stats ts flow = []) ∧
    (∀ (flow : String) (ts : List (List Field)),
      (∀ r ∈ ts, matchedRow flow 3 r = none) → calculate_type_stats ts flow = []) := by
  refine ⟨?_, ?_, ?_, ?_⟩
  · intro flow l l2 r h
    have h1 : matchedRow flow 1 r = none := matchedRow_none_of_num h
    have h3 : matchedRow flow 3 r = none := matchedRow_none_of_num h
    exact ⟨calcStats_congr_fold (statsFold_insert_skip flow 1 l l2 r h1),
      calcStats_congr_fold (statsFold_insert_skip flow 3 l l2 r h3)⟩
  · intro flow dim l r k a h
    have hfold : statsFold flow dim (l ++ [r]) =
        (dictAdd k a (statsFold flow dim l).1, (statsFold flow dim l).2 + a) := by
      rw [statsFold, statsFold, List.foldl_append, List.foldl_cons, List.foldl_nil,
        statsStep, h]
    rw [hfold]
    exact ⟨rfl, dlookup_dictAdd_self k a _⟩
  · intro flow ts h
    exact calcStats_all_none h
  · intro flow ts h
    exact calcStats_all_none h

/-- Witness for C5: a non-numeric amount row is dropped, and the
negative-amount row adds its -5 to the running flow total. -/
theorem C5_skip_rules_witness :
    calculate_label_stats ([] ++ badAmountRow :: []) "Expense" =
      calculate_label_stats ([] ++ []) "Expense" ∧
    (statsFold "Expense" 1 ([] ++ [sampleRow "Expense" "L" (-5) "T" 0])).2 =
      (statsFold "Expense" 1 []).2 + (-5) := by
  constructor
  · exact (C5_skip_rules.1 "Expense" [] [] badAmountRow rfl).1
  · refine (C5_skip_rules.2.1 "Expense" 1 [] (sampleRow "Expense" "L" (-5) "T" 0)
      "L" (-5) ?_).1
    norm_num +decide [matchedRow, sampleRow, mkStr, mkNum, mkDate, fieldRaw, fieldNum]

/-- C9: the balance calculator returns (0, 0) on the empty sequence; on
every sequence it returns exactly the pair of sums of the parseable
amounts of the Expense rows and of the Income rows it can read (at least
3 cells for calculate_totals, which indexes row[0] and row[2] inside the
try, at least 5 for the dashboard variant, which filters first), and any
row it cannot read is skipped without affecting the rest; the dashboard
variant returns (0, 0) when the file is missing. -/
theorem C9_totals_reduction :
    calculate_totals [] = (0, 0) ∧
    (∀ ts : List (List Field),
      calculate_totals ts = (flowSum 3 "Expense" ts, flowSum 3 "Income" ts)) ∧
    (∀ (l l2 : List (List Field)) (r : List Field),
      ¬ (3 ≤ r.length ∧ (fieldNum r 2).isSome = true) →
        calculate_totals (l ++ r :: l2) = calculate_totals (l ++ l2)) ∧
    calculate_all_time_totals none = (0, 0) ∧
    (∀ rows : List (List Field),
      calculate_all_time_totals (some rows) =
        (flowSum 5 "Expense" rows, flowSum 5 "Income" rows)) :=
  ⟨rfl, calculate_totals_eq, totals_insert_skip, rfl, calculate_all_time_totals_eq⟩

/-- Witness for C9: a two-cell row is skipped by the reduction. -/
theorem C9_totals_reduction_witness :
    calculate_totals ([sampleRow "Expense" "A" 10 "T" 0] ++
        [mkStr "Expense", mkNum "amt" 3] :: []) =
      calculate_totals ([sampleRow "Expense" "A" 10 "T" 0] ++ []) :=
  C9_totals_reduction.2.2.1 [sampleRow "Expense" "A" 10 "T" 0] []
    [mkStr "Expense", mkNum "amt" 3] (by norm_num)

/-- C7 counterexample: at noon of day 0 the Today filter keeps a row
dated day 1, whose calendar date differs from now's, refuting the claim
that only rows of now's calendar date are returned. -/
theorem C7_counterexample :
    get_filtered_transactions (some [sampleRow "Expense" "L" 1 "T" 1]) "Today"
        (1 / 2) = [sampleRow "Expense" "L" 1 "T" 1] ∧
    fieldDate (sampleRow "Expense" "L" 1 "T" 1) 4 = some 1 ∧
    Int.floor ((1 : ℚ) / 2) = 0 ∧ (1 : ℤ) ≠ 0 := by
  refine ⟨?_, rfl, by norm_num, by norm_num⟩
  norm_num +decide [get_filtered_transactions, sampleRow, mkStr, mkNum, mkDate, fieldDate]

/-- C7 amended: the Today filter keeps exactly the rows with at least 5
cells whose date parses and is at least the start of now's calendar day
(the floor of now): rows of earlier calendar dates are excluded, a row
dated exactly now's day is included, and rows of later days pass too. -/
theorem C7_today_filter (L : List (List Field)) (now : ℚ) (r : List Field) :
    r ∈ get_filtered_transactions (some L) "Today" now ↔
      r ∈ L ∧ 5 ≤ r.length ∧ ∃ d, fieldDate r 4 = some d ∧ Int.floor now ≤ d := by
  have hform : get_filtered_transactions (some L) "Today" now =
      (L.filter (fun t => 5 ≤ t.length)).filter (fun t =>
        match fieldDate t 4 with
        | some d => decide (((Int.floor now : ℤ) : ℚ) ≤ (d : ℚ))
        | none => false) := by
    simp +decide [get_filtered_transactions]
  rw [hform, List.mem_filter, List.mem_filter]
  constructor
  · rintro ⟨⟨hL, hlen⟩, hpred⟩
    refine ⟨hL, by simpa using hlen, ?_⟩
    cases hd : fieldDate r 4 with
    | none =>
      rw [hd] at hpred
      simp at hpred
    | some d =>
      rw [hd] at hpred
      refine ⟨d, rfl, ?_⟩
      have hle : ((Int.floor now : ℤ) : ℚ) ≤ (d : ℚ) := by simpa using hpred
      exact_mod_cast hle
  · rintro ⟨hL, hlen, d, hd, hfl⟩
    refine ⟨⟨hL, by simpa using hlen⟩, ?_⟩
    rw [hd]
    simp only [decide_eq_true_eq]
    exact_mod_cast hfl

/-- Witness for C7: the row dated day 0 is kept at noon of day 0. -/
theorem C7_today_filter_witness :
    sampleRow "Expense" "L" 1 "T" 0 ∈
      get_filtered_transactions (some [sampleRow "Expense" "L" 1 "T" 0]) "Today"
        (1 / 2) := by
  refine (C7_today_filter [sampleRow "Expense" "L" 1 "T" 0] (1 / 2)
      (sampleRow "Expense" "L" 1 "T" 0)).2
    ⟨List.mem_cons_self _ _, by norm_num [sampleRow], 0, rfl, ?_⟩
  norm_num

/-- C6 counterexample: on a two-day log an unrecognized selector gets day
count 1 from get_days_in_period while the All Time day count is 2, so the
fallback is not full All Time semantics. -/
theorem C6_counterexample :
    get_days_in_period (some twoDayLog) "Bogus" 1 twoDayLog = some 1 ∧
    get_days_in_period (some twoDayLog) "All Time" 1 twoDayLog = some 2 ∧
    (1 : ℤ) ≠ 2 := by
  refine ⟨?_, ?_, by norm_num⟩
  · norm_num +decide [get_days_in_period, rowDates, twoDayLog, sampleRow, mkStr, mkNum,
      mkDate, fieldDate, List.filterMap_cons, listMin, listMax]
  · norm_num +decide [get_days_in_period, rowDates, twoDayLog, sampleRow, mkStr, mkNum,
      mkDate, fieldDate, List.filterMap_cons, listMin, listMax]

/-- C6 amended: an unrecognized period selector makes
get_filtered_transactions fall back to All Time behaviour (all rows with
at least five cells pass unchanged), but get_days_in_period then returns
1, not the All Time day count. -/
theorem C6_fallback (log : Option (List (List Field))) (now : ℚ)
    (ts : List (List Field)) (period : String)
    (h : period ∉ ["Today", "Last 7 days", "Last 30 days", "Last 12 months",
      "All Time"]) :
    get_filtered_transactions log period now =
      get_filtered_transactions log "All Time" now ∧
    get_days_in_period log period now ts = some 1 := by
  simp only [List.mem_cons, List.mem_singleton, not_or] at h
  obtain ⟨h1, h2, h3, h4, h5⟩ := h
  constructor
  · cases log with
    | none => rfl
    | some rows =>
      simp +decide [get_filtered_transactions, h1, h2, h3, h4, h5]
  · cases log with
    | none => simp [get_days_in_period, h1]
    | some rows =>
      cases hrd : rowDates rows with
      | nil => simp [get_days_in_period, h1, hrd]
      | cons d ds => simp [get_days_in_period, h1, h2, h3, h4, h5, hrd]

/-- Witness for C6: the selector "Bogus" on the two-day log. -/
theorem C6_fallback_witness :
    get_filtered_transactions (some twoDayLog) "Bogus" 1 =
      get_filtered_transactions (some twoDayLog) "All Time" 1 ∧
    get_days_in_period (some twoDayLog) "Bogus" 1 twoDayLog = some 1 :=
  C6_fallback (some twoDayLog) 1 twoDayLog "Bogus" (by decide)

/-- A window selector day count: used by the C1 theorem for the three
fixed windows. -/
theorem days_window_case (rows : List (List Field)) (now : ℚ) (ts : List (List Field))
    (e : ℤ) (hmem : e ∈ rowDates rows) (hlb : ∀ x ∈ rowDates rows, e ≤ x)
    (period : String) (w : ℚ)
    (hper : (period = "Last 7 days" ∧ w = 7) ∨ (period = "Last 30 days" ∧ w = 30) ∨
      (period = "Last 12 months" ∧ w = 365)) :
    get_days_in_period (some rows) period now ts =
      some (max 1 (Int.floor (now - max (now - w) ((e : ℤ) : ℚ)) + 1)) := by
  cases hrd : rowDates rows with
  | nil =>
    rw [hrd] at hmem
    simp at hmem
  | cons d ds =>
    rw [hrd] at hmem hlb
    have hmin : listMin d ds = e := listMin_eq hmem hlb
    rcases hper with ⟨hp, hw⟩ | ⟨hp, hw⟩ | ⟨hp, hw⟩ <;> subst hp <;> subst hw <;>
      simp +decide [get_days_in_period, hrd, hmin]

/-- C1: get_days_in_period returns 1 for Today; for the three window
selectors, when the unfiltered log has a parseable date, it returns
max(1, floor(now - max(now - w, earliest)) + 1) where earliest is the
least parseable date of the whole log and w is 7, 30 or 365; for All
Time with a parseable filtered set it returns max(1, max - min + 1) over
the filtered set's dates; and it returns 1 when the log is missing, when
the log has no parseable date, or, for All Time, when the filtered set
has no parseable date. -/
theorem C1_day_count :
    (∀ (log : Option (List (List Field))) (now : ℚ) (ts : List (List Field)),
      get_days_in_period log "Today" now ts = some 1) ∧
    (∀ (rows : List (List Field)) (now : ℚ) (ts : List (List Field)) (e : ℤ),
      e ∈ rowDates rows → (∀ x ∈ rowDates rows, e ≤ x) →
      (get_days_in_period (some rows) "Last 7 days" now ts =
        some (max 1 (Int.floor (now - max (now - 7) ((e : ℤ) : ℚ)) + 1)) ∧
      get_days_in_period (some rows) "Last 30 days" now ts =
        some (max 1 (Int.floor (now - max (now - 30) ((e : ℤ) : ℚ)) + 1)) ∧
      get_days_in_period (some rows) "Last 12 months" now ts =
        some (max 1 (Int.floor (now - max (now - 365) ((e : ℤ) : ℚ)) + 1)))) ∧
    (∀ (rows : List (List Field)) (now : ℚ) (ts : List (List Field)) (mn mx : ℤ),
      rowDates rows ≠ [] → (∀ t ∈ ts, 5 ≤ t.length) →
      mn ∈ ts.filterMap (fun t => fieldDate t 4) →
      (∀ x ∈ ts.filterMap (fun t => fieldDate t 4), mn ≤ x) →
      mx ∈ ts.filterMap (fun t => fieldDate t 4) →
      (∀ x ∈ ts.filterMap (fun t => fieldDate t 4), x ≤ mx) →
      get_days_in_period (some rows) "All Time" now ts = some (max 1 (mx - mn + 1))) ∧
    (∀ (period : String) (now : ℚ) (ts : List (List Field)),
      get_days_in_period none period now ts = some 1) ∧
    (∀ (rows : List (List Field)) (period : String) (now : ℚ) (ts : List (List Field)),
      rowDates rows = [] → get_days_in_period (some rows) period now ts = some 1) ∧
    (∀ (rows : List (List Field)) (now : ℚ) (ts : List (List Field)),
      rowDates rows ≠ [] → (∀ t ∈ ts, 5 ≤ t.length) →
      ts.filterMap (fun t => fieldDate t 4) = [] →
      get_days_in_period (some rows) "All Time" now ts = some 1) := by
  refine ⟨?_, ?_, ?_, ?_, ?_, ?_⟩
  · intro log now ts
    simp [get_days_in_period]
  · intro rows now ts e hmem hlb
    exact ⟨days_window_case rows now ts e hmem hlb _ _ (Or.inl ⟨rfl, rfl⟩),
      days_window_case rows now ts e hmem hlb _ _ (Or.inr (Or.inl ⟨rfl, rfl⟩)),
      days_window_case rows now ts e hmem hlb _ _ (Or.inr (Or.inr ⟨rfl, rfl⟩))⟩
  · intro rows now ts mn mx hne hlen5 hmn hmnlb hmx hmxub
    cases hrd : rowDates rows with
    | nil => exact absurd hrd hne
    | cons d ds =>
      cases htd : ts.filterMap (fun t => fieldDate t 4) with
      | nil =>
        rw [htd] at hmn
        simp at hmn
      | cons e es =>
        rw [htd] at hmn hmnlb hmx hmxub
        have hall : ts.all (fun t => 5 ≤ t.length) = true := by
          rw [List.all_eq_true]
          intro t ht
          exact decide_eq_true (hlen5 t ht)
        have h1 : listMin e es = mn := listMin_eq hmn hmnlb
        have h2 : listMax e es = mx := listMax_eq hmx hmxub
        simp +decide [get_days_in_period, hrd, htd, hall, h1, h2]
  · intro period now ts
    by_cases h : period = "Today" <;> simp [get_days_in_period, h]
  · intro rows period now ts hrd
    by_cases h : period = "Today" <;> simp [get_days_in_period, h, hrd]
  · intro rows now ts hne hlen5 htd
    cases hrd : rowDates rows with
    | nil => exact absurd hrd hne
    | cons d ds =>
      have hall : ts.all (fun t => 5 ≤ t.length) = true := by
        rw [List.all_eq_true]
        intro t ht
        exact decide_eq_true (hlen5 t ht)
      simp +decide [get_days_in_period, hrd, htd, hall]

/-! ### Catalog scan-and-update lemmas -/

theorem decLabelLoop_spec (tn ln : String) :
    ∀ (pre post : List (List Field)) (a b c : Field) (n : ℤ),
      (∀ r ∈ pre, r.length = 3 ∧ ¬ (fieldRaw r 0 = tn ∧ fieldRaw r 1 = ln)) →
      a.raw = tn → b.raw = ln → c.asInt = some n →
      decLabelLoop tn ln (pre ++ [a, b, c] :: post) =
        some (pre ++ [a, b, intField (max 0 (n - 1))] :: post) := by
  intro pre
  induction pre with
  | nil =>
    intro post a b c n _ ha hb hc
    simp [decLabelLoop, ha, hb, hc]
  | cons r pre ih =>
    intro post a b c n hpre ha hb hc
    obtain ⟨hr3, hrne⟩ := hpre r (List.mem_cons_self _ _)
    obtain ⟨x, y, z, rfl⟩ := List.length_eq_three.1 hr3
    have hxy : ¬ (x.raw = tn ∧ y.raw = ln) := by
      simpa [fieldRaw] using hrne
    have hrec := ih post a b c n (fun r hr => hpre r (List.mem_cons_of_mem _ hr)) ha hb hc
    simp [decLabelLoop, hxy, hrec]

theorem incLabelLoop_spec (tn ln : String) :
    ∀ (pre post : List (List Field)) (a b c : Field) (n : ℤ),
      (∀ r ∈ pre, r.length = 3 ∧ ¬ (fieldRaw r 0 = tn ∧ fieldRaw r 1 = ln)) →
      a.raw = tn → b.raw = ln → c.asInt = some n →
      incLabelLoop tn ln (pre ++ [a, b, c] :: post) =
        some (pre ++ [a, b, intField (n + 1)] :: post) := by
  intro pre
  induction pre with
  | nil =>
    intro post a b c n _ ha hb hc
    simp [incLabelLoop, ha, hb, hc]
  | cons r pre ih =>
    intro post a b c n hpre ha hb hc
    obtain ⟨hr3, hrne⟩ := hpre r (List.mem_cons_self _ _)
    obtain ⟨x, y, z, rfl⟩ := List.length_eq_three.1 hr3
    have hxy : ¬ (x.raw = tn ∧ y.raw = ln) := by
      simpa [fieldRaw] using hrne
    have hrec := ih post a b c n (fun r hr => hpre r (List.mem_cons_of_mem _ hr)) ha hb hc
    simp [incLabelLoop, hxy, hrec]

theorem decTypeLoop_spec (tn : String) :
    ∀ (pre post : List (List Field)) (d e : Field) (m : ℤ),
      (∀ r ∈ pre, r.length = 2 ∧ ¬ (fieldRaw r 0 = tn)) →
      d.raw = tn → e.asInt = some m →
      decTypeLoop tn (pre ++ [d, e] :: post) =
        some (pre ++ [d, intField (max 0 (m - 1))] :: post) := by
  intro pre
  induction pre with
  | nil =>
    intro post d e m _ hd he
    simp [decTypeLoop, hd, he]
  | cons r pre ih =>
    intro post d e m hpre hd he
    obtain ⟨hr2, hrne⟩ := hpre r (List.mem_cons_self _ _)
    obtain ⟨x, y, rfl⟩ := List.length_eq_two.1 hr2
    have hx : ¬ (x.raw = tn) := by
      simpa [fieldRaw] using hrne
    have hrec := ih post d e m (fun r hr => hpre r (List.mem_cons_of_mem _ hr)) hd he
    simp [decTypeLoop, hx, hrec]

theorem incTypeLoop_spec (tn : String) :
    ∀ (pre post : List (List Field)) (d e : Field) (m : ℤ),
      (∀ r ∈ pre, r.length = 2 ∧ ¬ (fieldRaw r 0 = tn)) →
      d.raw = tn → e.asInt = some m →
      incTypeLoop tn (pre ++ [d, e] :: post) =
        some (pre ++ [d, intField (m + 1)] :: post) := by
  intro pre
  induction pre with
  | nil =>
    intro post d e m _ hd he
    simp [incTypeLoop, hd, he]
  | cons r pre ih =>
    intro post d e m hpre hd he
    obtain ⟨hr2, hrne⟩ := hpre r (List.mem_cons_self _ _)
    obtain ⟨x, y, rfl⟩ := List.length_eq_two.1 hr2
    have hx : ¬ (x.raw = tn) := by
      simpa [fieldRaw] using hrne
    have hrec := ih post d e m (fun r hr => hpre r (List.mem_cons_of_mem _ hr)) hd he
    simp [incTypeLoop, hx, hrec]

theorem labels_filter_eq (pre post : List (List Field)) (a b c : Field)
    (hpre3 : ∀ r ∈ pre, r.length = 3) (hpost : ∀ r ∈ post, 3 ≤ r.length) :
    (pre ++ [a, b, c] :: post).filter (fun r => 3 ≤ r.length) =
      pre ++ [a, b, c] :: post := by
  rw [List.filter_eq_self]
  intro r hr
  rcases List.mem_append.1 hr with h | h
  · exact decide_eq_true (le_of_eq (hpre3 r h).symm)
  · rcases List.mem_cons.1 h with h1 | h1
    · rw [h1]
      simp
    · exact decide_eq_true (hpost r h1)

theorem types_filter_eq (pre post : List (List Field)) (d e : Field)
    (hpre2 : ∀ r ∈ pre, r.length = 2) (hpost : ∀ r ∈ post, 2 ≤ r.length) :
    (pre ++ [d, e] :: post).filter (fun r => 2 ≤ r.length) =
      pre ++ [d, e] :: post := by
  rw [List.filter_eq_self]
  intro r hr
  rcases List.mem_append.1 hr with h | h
  · exact decide_eq_true (le_of_eq (hpre2 r h).symm)
  · rcases List.mem_cons.1 h with h1 | h1
    · rw [h1]
      simp
    · exact decide_eq_true (hpost r h1)

theorem decrement_label_count_spec (file : List (List Field)) (tn ln : String)
    (pre post : List (List Field)) (a b c : Field) (n : ℤ)
    (hfile : file = pre ++ [a, b, c] :: post)
    (hpre : ∀ r ∈ pre, r.length = 3 ∧ ¬ (fieldRaw r 0 = tn ∧ fieldRaw r 1 = ln))
    (hpost : ∀ r ∈ post, 3 ≤ r.length)
    (ha : a.raw = tn) (hb : b.raw = ln) (hc : c.asInt = some n) :
    decrement_label_count file tn ln =
      pre ++ [a, b, intField (max 0 (n - 1))] :: post := by
  rw [decrement_label_count, hfile,
    labels_filter_eq pre post a b c (fun r hr => (hpre r hr).1) hpost,
    decLabelLoop_spec tn ln pre post a b c n hpre ha hb hc]

theorem update_label_count_spec (file : List (List Field)) (tn ln : String)
    (pre post : List (List Field)) (a b c : Field) (n : ℤ)
    (hfile : file = pre ++ [a, b, c] :: post)
    (hpre : ∀ r ∈ pre, r.length = 3 ∧ ¬ (fieldRaw r 0 = tn ∧ fieldRaw r 1 = ln))
    (hpost : ∀ r ∈ post, 3 ≤ r.length)
    (ha : a.raw = tn) (hb : b.raw = ln) (hc : c.asInt = some n) :
    update_label_count file tn ln = pre ++ [a, b, intField (n + 1)] :: post := by
  rw [update_label_count, hfile,
    labels_filter_eq pre post a b c (fun r hr => (hpre r hr).1) hpost,
    incLabelLoop_spec tn ln pre post a b c n hpre ha hb hc]

theorem decrement_type_count_spec (file : List (List Field)) (tn : String)
    (pre post : List (List Field)) (d e : Field) (m : ℤ)
    (hfile : file = pre ++ [d, e] :: post)
    (hpre : ∀ r ∈ pre, r.length = 2 ∧ ¬ (fieldRaw r 0 = tn))
    (hpost : ∀ r ∈ post, 2 ≤ r.length)
    (hd : d.raw = tn) (he : e.asInt = some m) :
    decrement_type_count file tn = pre ++ [d, intField (max 0 (m - 1))] :: post := by
  rw [decrement_type_count, hfile,
    types_filter_eq pre post d e (fun r hr => (hpre r hr).1) hpost,
    decTypeLoop_spec tn pre post d e m hpre hd he]

theorem update_type_count_spec (file : List (List Field)) (tn : String)
    (pre post : List (List Field)) (d e : Field) (m : ℤ)
    (hfile : file = pre ++ [d, e] :: post)
    (hpre : ∀ r ∈ pre, r.length = 2 ∧ ¬ (fieldRaw r 0 = tn))
    (hpost : ∀ r ∈ post, 2 ≤ r.length)
    (hd : d.raw = tn) (he : e.asInt = some m) :
    update_type_count file tn = pre ++ [d, intField (m + 1)] :: post := by
  rw [update_type_count, hfile,
    types_filter_eq pre post d e (fun r hr => (hpre r hr).1) hpost,
    incTypeLoop_spec tn pre post d e m hpre hd he]

/-- C8: deleting a transaction of a flow decrements exactly the usage
count of the first label row matching the owning type and label name
(floored at 0) and of the first type row matching the type name (floored
at 0) in that flow's two catalog files, leaves every other row of those
two files unchanged, and leaves the other flow's two catalogs untouched. -/
theorem C8_delete_decrements (cats : Catalogs) (flow ln tn : String)
    (preL postL : List (List Field)) (a b c : Field) (n : ℤ)
    (preT postT : List (List Field)) (d e : Field) (m : ℤ)
    (hflow : flow = "Expense" ∨ flow = "Income")
    (hL : labelCatalogOf cats flow = preL ++ [a, b, c] :: postL)
    (hpreL : ∀ r ∈ preL, r.length = 3 ∧ ¬ (fieldRaw r 0 = tn ∧ fieldRaw r 1 = ln))
    (hpostL : ∀ r ∈ postL, 3 ≤ r.length)
    (ha : a.raw = tn) (hb : b.raw = ln) (hc : c.asInt = some n)
    (hT : typeCatalogOf cats flow = preT ++ [d, e] :: postT)
    (hpreT : ∀ r ∈ preT, r.length = 2 ∧ ¬ (fieldRaw r 0 = tn))
    (hpostT : ∀ r ∈ postT, 2 ≤ r.length)
    (hd : d.raw = tn) (he : e.asInt = some m) :
    labelCatalogOf (decrement_usage_counts cats flow ln tn) flow =
      preL ++ [a, b, intField (max 0 (n - 1))] :: postL ∧
    typeCatalogOf (decrement_usage_counts cats flow ln tn) flow =
      preT ++ [d, intField (max 0 (m - 1))] :: postT ∧
    otherLabelCatalog (decrement_usage_counts cats flow ln tn) flow =
      otherLabelCatalog cats flow ∧
    otherTypeCatalog (decrement_usage_counts cats flow ln tn) flow =
      otherTypeCatalog cats flow := by
  rcases hflow with hf | hf <;> subst hf
  · rw [labelCatalogOf, if_pos rfl] at hL
    rw [typeCatalogOf, if_pos rfl] at hT
    refine ⟨?_, ?_, rfl, rfl⟩
    · show decrement_label_count cats.expenseLabels tn ln = _
      exact decrement_label_count_spec _ tn ln preL postL a b c n hL hpreL hpostL ha hb hc
    · show decrement_type_count cats.expenseTypes tn = _
      exact decrement_type_count_spec _ tn preT postT d e m hT hpreT hpostT hd he
  · have hni : ¬ ("Income" = "Expense") := by decide
    rw [labelCatalogOf, if_neg hni] at hL
    rw [typeCatalogOf, if_neg hni] at hT
    refine ⟨?_, ?_, ?_, ?_⟩
    · show labelCatalogOf _ "Income" = _
      rw [labelCatalogOf, if_neg hni]
      show decrement_label_count cats.incomeLabels tn ln = _
      exact decrement_label_count_spec _ tn ln preL postL a b c n hL hpreL hpostL ha hb hc
    · show typeCatalogOf _ "Income" = _
      rw [typeCatalogOf, if_neg hni]
      show decrement_type_count cats.incomeTypes tn = _
      exact decrement_type_count_spec _ tn preT postT d e m hT hpreT hpostT hd he
    · show otherLabelCatalog _ "Income" = _
      rw [otherLabelCatalog, otherLabelCatalog, if_neg hni, if_neg hni]
      rfl
    · show otherTypeCatalog _ "Income" = _
      rw [otherTypeCatalog, otherTypeCatalog, if_neg hni, if_neg hni]
      rfl

/-- Witness for C8: deleting an expense transaction labelled Groceries of
type Food on the sample catalogs. -/
theorem C8_delete_decrements_witness :
    labelCatalogOf (decrement_usage_counts sampleCats "Expense" "Groceries" "Food")
        "Expense" = [[mkStr "Food", mkStr "Groceries", intField 1]] ∧
    typeCatalogOf (decrement_usage_counts sampleCats "Expense" "Groceries" "Food")
        "Expense" = [[mkStr "Food", intField 3]] ∧
    otherLabelCatalog (decrement_usage_counts sampleCats "Expense" "Groceries" "Food")
        "Expense" = otherLabelCatalog sampleCats "Expense" ∧
    otherTypeCatalog (decrement_usage_counts sampleCats "Expense" "Groceries" "Food")
        "Expense" = otherTypeCatalog sampleCats "Expense" := by
  have h := C8_delete_decrements sampleCats "Expense" "Groceries" "Food"
    [] [] (mkStr "Food") (mkStr "Groceries") (intField 2) 2
    [] [] (mkStr "Food") (intField 4) 4
    (Or.inl rfl) rfl (by simp) (by simp) rfl rfl rfl rfl (by simp) (by simp) rfl rfl
  simpa using h

/-- C10: on a catalog file with duplicate keys each increment and each
decrement rewrites only the first matching row in file order; every later
row, duplicates of the key included, is written back unchanged. -/
theorem C10_first_match_only :
    (∀ (file : List (List Field)) (tn ln : String) (pre post : List (List Field))
        (a b c : Field) (n : ℤ),
      file = pre ++ [a, b, c] :: post →
      (∀ r ∈ pre, r.length = 3 ∧ ¬ (fieldRaw r 0 = tn ∧ fieldRaw r 1 = ln)) →
      (∀ r ∈ post, 3 ≤ r.length) →
      a.raw = tn → b.raw = ln → c.asInt = some n →
      update_label_count file tn ln = pre ++ [a, b, intField (n + 1)] :: post ∧
      decrement_label_count file tn ln =
        pre ++ [a, b, intField (max 0 (n - 1))] :: post) ∧
    (∀ (file : List (List Field)) (tn : String) (pre post : List (List Field))
        (d e : Field) (m : ℤ),
      file = pre ++ [d, e] :: post →
      (∀ r ∈ pre, r.length = 2 ∧ ¬ (fieldRaw r 0 = tn)) →
      (∀ r ∈ post, 2 ≤ r.length) →
      d.raw = tn → e.asInt = some m →
      update_type_count file tn = pre ++ [d, intField (m + 1)] :: post ∧
      decrement_type_count file tn = pre ++ [d, intField (max 0 (m - 1))] :: post) := by
  constructor
  · intro file tn ln pre post a b c n hfile hpre hpost ha hb hc
    exact ⟨update_label_count_spec file tn ln pre post a b c n hfile hpre hpost ha hb hc,
      decrement_label_count_spec file tn ln pre post a b c n hfile hpre hpost ha hb hc⟩
  · intro file tn pre post d e m hfile hpre hpost hd he
    exact ⟨update_type_count_spec file tn pre post d e m hfile hpre hpost hd he,
      decrement_type_count_spec file tn pre post d e m hfile hpre hpost hd he⟩

/-- Witness for C10: incrementing on a file with two rows of the same key
updates only the first one. -/
theorem C10_first_match_only_witness :
    update_label_count [labRow "T" "L" 5, labRow "T" "L" 7] "T" "L" =
      [labRow "T" "L" 6, labRow "T" "L" 7] := by
  have h := (C10_first_match_only.1 [labRow "T" "L" 5, labRow "T" "L" 7] "T" "L"
    [] [labRow "T" "L" 7] (mkStr "T") (mkStr "L") (intField 5) 5
    rfl (by simp) (by intro r hr; simp at hr; rw [hr]; decide) rfl rfl rfl).1
  simpa [labRow] using h

/-- Witness for C1: concrete day counts on the two-day log at noon of
day 1. -/
theorem C1_day_count_witness :
    get_days_in_period (some twoDayLog) "Today" (3 / 2) twoDayLog = some 1 ∧
    get_days_in_period (some twoDayLog) "Last 7 days" (3 / 2) twoDayLog =
      some (max 1 (Int.floor ((3 : ℚ) / 2 - max ((3 : ℚ) / 2 - 7) ((0 : ℤ) : ℚ)) + 1)) ∧
    get_days_in_period (some twoDayLog) "All Time" (3 / 2) twoDayLog =
      some (max 1 ((1 : ℤ) - 0 + 1)) := by
  refine ⟨C1_day_count.1 (some twoDayLog) (3 / 2) twoDayLog,
    (C1_day_count.2.1 twoDayLog (3 / 2) twoDayLog 0 (by decide) (by decide)).1,
    C1_day_count.2.2.1 twoDayLog (3 / 2) twoDayLog 0 1 (by decide) (by decide)
      (by decide) (by decide) (by decide) (by decide)⟩

end Budget
